import Mathlib

/-!
Verification of the mOS CPU-partitioning core (`mOS/mos.c`).

CPU masks (`cpumask_var_t`) are modelled as `Finset Nat`; NUL-terminated C
strings as `List Char`.  The textual configuration grammar (`strsep` on group
and list delimiters, `cpulist_parse` comma/hyphen CPU-id lists) is embedded
directly; the kernel parser's whitespace-skipping and stride extensions are
never exercised by this module's callers and are outside the embedded grammar.
External collaborators (`lwkcpu_partition_create` / `lwkcpu_partition_destroy`
and the lifecycle/option callbacks registered by other subsystems) are
parameters of the model: a `Hooks` record of their success values, and lists
of callback success values.  Diagnostic-only calls (`mos_ras`, `pr_info`) and
memory-allocation failure paths are not modelled.
-/

namespace Mos

/-- Splits a character list at every occurrence of `c`, keeping empty pieces,
mirroring repeated `strsep` on a single-character delimiter: `strsep` on the
empty string yields one empty token. -/
def splitOnChar (c : Char) : List Char → List (List Char)
  | [] => [[]]
  | x :: xs =>
    let r := splitOnChar c xs
    if x = c then [] :: r
    else
      match r with
      | [] => [[x]]
      | y :: ys => (x :: y) :: ys

/-- Splits at the first occurrence of `c` (the `strchr` + overwrite-with-NUL
idiom): `none` when `c` does not occur. -/
def splitFirstChar (c : Char) : List Char → Option (List Char × List Char)
  | [] => none
  | x :: xs =>
    if x = c then some ([], xs)
    else
      match splitFirstChar c xs with
      | none => none
      | some (a, b) => some (x :: a, b)

/-- Accumulator for decimal parsing of a CPU id. -/
def parseNatAux : Nat → List Char → Option Nat
  | acc, [] => some acc
  | acc, ch :: cs =>
    if ch.isDigit then parseNatAux (acc * 10 + (ch.toNat - 48)) cs else none

/-- Parses a non-empty all-digit token as a decimal number (`kstrtouint` as
used on CPU-list chunks); anything else is an error. -/
def parseNatChars : List Char → Option Nat
  | [] => none
  | l => parseNatAux 0 l

/-- One chunk of a CPU list: either a single id `n` or a range `a-b` with
`a ≤ b`. -/
def parseRange (tok : List Char) : Option (Finset Nat) :=
  match splitFirstChar '-' tok with
  | none => (parseNatChars tok).map fun n => {n}
  | some (a, b) =>
    match parseNatChars a, parseNatChars b with
    | some x, some y => if x ≤ y then some (Finset.Icc x y) else none
    | _, _ => none

/-- `cpulist_parse`: a comma-separated list of ids and hyphen ranges; the
empty string parses to the empty mask. -/
def cpulist_parse (l : List Char) : Option (Finset Nat) :=
  if l = [] then some ∅
  else
    (splitOnChar ',' l).foldlM (fun acc tok => (parseRange tok).map (acc ∪ ·)) ∅

/-- One `:`-separated group of an lwkcpus specification.  The part before the
first `.` is the syscall-target list (`s_to`), the part after it the LWK CPU
list (`s_from`); with no `.` the whole group is the LWK CPU list and the
target list is empty. Returns `(to, from)` masks, or `none` on a parse
error in either list. -/
def parseGroup (g : List Char) : Option (Finset Nat × Finset Nat) :=
  let p := match splitFirstChar '.' g with
    | some (a, b) => (a, b)
    | none => (([] : List Char), g)
  match cpulist_parse p.1, cpulist_parse p.2 with
  | some tgt, some fr => some (tgt, fr)
  | _, _ => none

/-- The LWK (reserved) CPU set contributed by one group: the `from` mask. -/
def group_from (g : List Char) : Finset Nat :=
  match parseGroup g with
  | none => ∅
  | some (_, fr) => fr

/-- The syscall-target CPU set contributed by one group: the `to` mask. -/
def group_to (g : List Char) : Finset Nat :=
  match parseGroup g with
  | none => ∅
  | some (tgt, _) => tgt

/-- Accumulated LWK CPUs across a list of groups (`new_lwkcpus`). -/
def groups_lwk : List (List Char) → Finset Nat
  | [] => ∅
  | g :: gs => group_from g ∪ groups_lwk gs

/-- Accumulated syscall-target CPUs across a list of groups
(`new_syscallcpus`). -/
def groups_sys : List (List Char) → Finset Nat
  | [] => ∅
  | g :: gs => group_to g ∪ groups_sys gs

/-- A group that parses and names more than one syscall-target CPU together
with a non-empty LWK CPU range (the condition rejected by
`validate_lwkcpus_spec`). -/
def group_ambiguous (g : List Char) : Bool :=
  match parseGroup g with
  | some (tgt, fr) => decide (1 < tgt.card ∧ fr.Nonempty)
  | none => false

/-- The distinct failure diagnostics of `validate_lwkcpus_spec` (the C
function returns a bare `-1`; the kinds correspond to its distinct `mos_ras`
messages). -/
inductive ValidateErr where
  | parseError
  | ambiguousTarget
  | resourceInUse
  | overlappingRoles
deriving DecidableEq, Repr

/-- The group loop of `validate_lwkcpus_spec`, carrying the accumulated
`new_lwkcpus` and `new_syscallcpus` masks; after the loop the accumulated LWK
CPUs are checked against the online mask and the accumulated target CPUs. -/
def validate_go (online : Finset Nat) :
    List (List Char) → Finset Nat → Finset Nat → Option ValidateErr
  | [], lwk, sys =>
    if (lwk ∩ online).Nonempty then some .resourceInUse
    else if (lwk ∩ sys).Nonempty then some .overlappingRoles
    else none
  | g :: gs, lwk, sys =>
    match parseGroup g with
    | none => some .parseError
    | some (tgt, fr) =>
      if 1 < tgt.card ∧ fr.Nonempty then some .ambiguousTarget
      else validate_go online gs (lwk ∪ fr) (sys ∪ tgt)

/-- `validate_lwkcpus_spec(lwkcpus_parm)`: splits the specification on `:`
into groups and runs the validation loop; `none` means `rc = 0`. -/
def validate_lwkcpus_spec (online : Finset Nat) (param : List Char) :
    Option ValidateErr :=
  validate_go online (splitOnChar ':' param) ∅ ∅

/-- The global partition state of `mos.c`: the three authoritative CPU masks,
the per-CPU syscall-redirection masks `mos_syscall_mask`, and the per-CPU
cached copy of the LWK CPU mask `lwkcpus_mask` (the same value is copied to
every CPU, so one mask models it). -/
structure MosState where
  lwkcpus_map : Finset Nat
  utility_cpus_map : Finset Nat
  lwkcpus_reserved_map : Finset Nat
  syscall_mask : Nat → Finset Nat
  percpu_lwkcpus : Finset Nat

/-- Boot state: the maps are allocated zeroed and the per-CPU masks are
zero-initialized (`DEFINE_PER_CPU` of a `cpumask_t`). -/
def initState : MosState :=
  { lwkcpus_map := ∅
    utility_cpus_map := ∅
    lwkcpus_reserved_map := ∅
    syscall_mask := fun _ => ∅
    percpu_lwkcpus := ∅ }

/-- Success values of the external domain-transition collaborators
`lwkcpu_partition_destroy` and `lwkcpu_partition_create` (excluded from the
core; `lwkcpu_state_init` / `lwkcpu_state_deinit` only emit warnings and do
not affect `rc`). -/
structure Hooks where
  destroyOk : Bool
  createOk : Bool

/-- Accumulator of the group loop in the create path of
`lwk_config_lwkcpus`: the per-CPU syscall masks being written, and the
accumulated `new_lwkcpus` / `new_utilcpus` masks. -/
structure GroupAcc where
  mask : Nat → Finset Nat
  newLwk : Finset Nat
  newUtil : Finset Nat

/-- One iteration of the create-path group loop: for every CPU of the group's
`from` mask, the syscall mask becomes the `to` mask, or the CPU's own
singleton when no target was given; `from` accumulates into `new_lwkcpus` and
`to` into `new_utilcpus`.  (Validation has already succeeded when this loop
runs, so a non-parsing group cannot occur and is mapped to a no-op.) -/
def apply_group (acc : GroupAcc) (g : List Char) : GroupAcc :=
  match parseGroup g with
  | none => acc
  | some (tgt, fr) =>
    { mask := fun cpu =>
        if cpu ∈ fr then (if tgt = ∅ then {cpu} else tgt) else acc.mask cpu
      newLwk := acc.newLwk ∪ fr
      newUtil := acc.newUtil ∪ tgt }

/-- Which code path of `lwk_config_lwkcpus` produced a failing `rc`.  The C
function returns a bare `-1` in every failing case; the constructors
correspond to its distinct exit paths (and, where one exists, the `mos_ras`
diagnostic emitted there).  `emptyConfig` is the silent path on which `rc`
is never assigned `0`: releasing when no LWK CPUs are configured, or creating
from a spec whose accumulated LWK CPU set is empty. -/
inductive ConfigErr where
  | configurationLocked
  | validateFailed (e : ValidateErr)
  | emptyConfig
  | destroyFailed
  | createFailed
deriving DecidableEq, Repr

/-- Result of `lwk_config_lwkcpus`: the returned `rc` (as a success flag plus
the failing path), the resulting global state, and the mask each external
domain-transition hook was invoked with (`none` when not invoked). -/
structure ConfigOut where
  success : Bool
  err : Option ConfigErr
  st : MosState
  destroyArg : Option (Finset Nat)
  createArg : Option (Finset Nat)

/-- The release path of `lwk_config_lwkcpus` (empty `param_value`): every
currently configured LWK CPU's syscall mask is reset to its own singleton,
the per-CPU LWK mask copies are cleared, and `lwkcpu_partition_destroy` is
invoked on the saved `back_to_linux` mask when it is non-empty; only when it
succeeds are `lwkcpus_map` and `utility_cpus_map` cleared
(`lwkcpus_reserved_map` is never touched).  With an empty `back_to_linux`
mask `rc` keeps its initial `-1`. -/
def config_release (hooks : Hooks) (st : MosState) : ConfigOut :=
  let mask1 : Nat → Finset Nat :=
    fun cpu => if cpu ∈ st.lwkcpus_map then {cpu} else st.syscall_mask cpu
  let st1 : MosState := { st with syscall_mask := mask1, percpu_lwkcpus := ∅ }
  if st.lwkcpus_map = ∅ then
    { success := false, err := some .emptyConfig, st := st1,
      destroyArg := none, createArg := none }
  else if hooks.destroyOk then
    { success := true, err := none,
      st := { st1 with lwkcpus_map := ∅, utility_cpus_map := ∅ },
      destroyArg := some st.lwkcpus_map, createArg := none }
  else
    { success := false, err := some .destroyFailed, st := st1,
      destroyArg := some st.lwkcpus_map, createArg := none }

/-- The create path of `lwk_config_lwkcpus` (non-empty `param_value`): the
spec is validated first and nothing is mutated on a validation failure; then
the group loop installs the new syscall masks and accumulates the new LWK and
utility masks, the per-CPU LWK mask copies are set to `new_lwkcpus`, and
`lwkcpu_partition_create` is invoked when `new_lwkcpus` is non-empty; only
when it succeeds are `lwkcpus_map` and `utility_cpus_map` replaced.  With an
empty `new_lwkcpus` mask `rc` keeps its initial `-1`. -/
def config_create (online : Finset Nat) (hooks : Hooks) (st : MosState)
    (param : List Char) : ConfigOut :=
  match validate_lwkcpus_spec online param with
  | some e =>
    { success := false, err := some (.validateFailed e), st := st,
      destroyArg := none, createArg := none }
  | none =>
    let acc := (splitOnChar ':' param).foldl apply_group
      { mask := st.syscall_mask, newLwk := ∅, newUtil := ∅ }
    let st1 : MosState :=
      { st with syscall_mask := acc.mask, percpu_lwkcpus := acc.newLwk }
    if acc.newLwk = ∅ then
      { success := false, err := some .emptyConfig, st := st1,
        destroyArg := none, createArg := none }
    else if hooks.createOk then
      let st2 : MosState :=
        { st1 with lwkcpus_map := acc.newLwk, utility_cpus_map := acc.newUtil }
      { success := true, err := none, st := st2,
        destroyArg := none, createArg := some acc.newLwk }
    else
      { success := false, err := some .createFailed, st := st1,
        destroyArg := none, createArg := some acc.newLwk }

/-- `lwk_config_lwkcpus(param_value, lwkcpu_profile)`: an empty value is the
release sentinel; a non-empty value while `lwkcpus_map` is non-empty is the
unsupported-reconfiguration failure, taken before anything is mutated.  The
`lwkcpu_profile` argument only selects the profile passed to
`lwkcpu_state_init`, whose failures are warnings that never change `rc`, so
it does not appear in the model. -/
def lwk_config_lwkcpus (online : Finset Nat) (hooks : Hooks) (st : MosState)
    (param : List Char) : ConfigOut :=
  if ¬ st.lwkcpus_map = ∅ ∧ ¬ param.isEmpty then
    { success := false, err := some .configurationLocked, st := st,
      destroyArg := none, createArg := none }
  else if param.isEmpty then config_release hooks st
  else config_create online hooks st param

/-- Error codes returned by the process-level request paths. -/
inductive ReqErr where
  | einval
  | ebusy
  | enomem
deriving DecidableEq, Repr

/-- `struct mos_process_t`, restricted to the fields `mos.c` itself manages.
The CPU-sequence array is a `List Int` so that the `-1` end sentinel can be
represented. -/
structure MosProcess where
  tgid : Nat
  lwkcpus : Finset Nat
  utilcpus : Finset Nat
  lwkcpus_sequence : List Int
  num_lwkcpus : Nat
  num_util_threads : Nat
  alive : Nat
deriving DecidableEq

/-- Per-task context: `current->mos_process` and the
`MOS_IS_LWK_PROCESS` bit of `current->mos_flags`. -/
structure TaskCtx where
  mos_process : Option MosProcess
  is_lwk : Bool
deriving DecidableEq

/-- `mos_get_process()`: returns the existing record, or creates a fresh
zero-initialized one (alive count 1 for the current thread) and runs every
registered `mos_process_init` callback in list order; a failing callback
yields no record.  `initHooks` lists the callbacks' success values in the
order the registry is traversed. -/
def mos_get_process (initHooks : List Bool) (tgid : Nat)
    (cur : Option MosProcess) : Option MosProcess :=
  match cur with
  | some p => some p
  | none =>
    let p : MosProcess :=
      { tgid := tgid, lwkcpus := ∅, utilcpus := ∅, lwkcpus_sequence := []
        num_lwkcpus := 0, num_util_threads := 0, alive := 1 }
    if initHooks.all (· = true) then some p else none

/-- `_cpus_request_set(request, target)` with `target` being
`lwkcpus_reserved_map`: `-EINVAL` when the request is not a subset of the
designated LWK CPUs, `-EBUSY` when it intersects the reserved map, else the
request is OR-ed into the reserved map (the `MOS_IS_LWK_PROCESS` flag is set
on this success path; the caller's model records it). -/
def _cpus_request_set (lwkcpus_map reserved request : Finset Nat) :
    Except ReqErr (Finset Nat) :=
  if ¬ request ⊆ lwkcpus_map then .error .einval
  else if (request ∩ reserved).Nonempty then .error .ebusy
  else .ok (reserved ∪ request)

/-- Outcome of `_lwkcpus_request_set`: the returned `rc` (`none` = 0), the
resulting `lwkcpus_reserved_map`, and the resulting task context.  The
reserved map is part of the outcome in every case because the C code has
already OR-ed the request into it when the later `-ENOMEM` path is taken. -/
structure LwkReqOut where
  rc : Option ReqErr
  reserved : Finset Nat
  task : TaskCtx

/-- `_lwkcpus_request_set(request)`: delegates the legality checks and the
reserved-map update to `_cpus_request_set`; on success it gets-or-creates the
process record, overwrites the record's CPU mask with the request
(`cpumask_or(p->lwkcpus, request, request)` ors the request with itself),
rebuilds the CPU-sequence array from that mask in ascending CPU order with a
`-1` sentinel, and ORs the current utility mask into the record. -/
def _lwkcpus_request_set (lwkcpus_map utility_cpus_map : Finset Nat)
    (initHooks : List Bool) (tgid : Nat) (reserved : Finset Nat)
    (t : TaskCtx) (request : Finset Nat) : LwkReqOut :=
  match _cpus_request_set lwkcpus_map reserved request with
  | .error e => { rc := some e, reserved := reserved, task := t }
  | .ok reserved1 =>
    let t1 : TaskCtx := { t with is_lwk := true }
    match mos_get_process initHooks tgid t.mos_process with
    | none =>
      { rc := some .enomem, reserved := reserved1,
        task := { t1 with mos_process := none } }
    | some p =>
      let seq := ((request.sort (· ≤ ·)).map Int.ofNat) ++ [(-1 : Int)]
      let p1 : MosProcess :=
        { p with lwkcpus := request, num_lwkcpus := request.card,
                 lwkcpus_sequence := seq,
                 utilcpus := p.utilcpus ∪ utility_cpus_map }
      { rc := none, reserved := reserved1,
        task := { t1 with mos_process := some p1 } }

/-- `_cpus_reserved_set(request, target)` with `target` being
`lwkcpus_reserved_map` (the `lwkcpus_reserved` store): a non-empty request
that is not a subset of the LWK CPUs is `-EINVAL`; otherwise the reserved map
is replaced by the request. -/
def _cpus_reserved_set (lwkcpus_map request : Finset Nat) :
    Except ReqErr (Finset Nat) :=
  if ¬ request = ∅ ∧ ¬ request ⊆ lwkcpus_map then .error .einval
  else .ok request

/-- `cpumask_xor` as used by `mos_exit_thread` to return a process's CPUs:
symmetric difference. -/
def cpumask_xor (a b : Finset Nat) : Finset Nat := (a \ b) ∪ (b \ a)

/-- `mos_exit_thread()` for a task with record `p`: every exit fires the
`mos_thread_exit` callbacks (not tracked here); only when the alive count
drops to zero do the `mos_process_exit` callbacks fire, the record's CPUs get
XOR-ed out of `lwkcpus_reserved_map`, and the record is freed.  Returns the
new reserved map and the surviving record. -/
def mos_exit_thread (reserved : Finset Nat) (p : MosProcess) :
    Finset Nat × Option MosProcess :=
  if p.alive - 1 = 0 then (cpumask_xor reserved p.lwkcpus, none)
  else (reserved, some { p with alive := p.alive - 1 })

/-- `struct mos_process_option_callback_elem_t`: a registered named-option
callback.  The handler receives the option's value (the text after the first
`=`, absent when there is none) and reports success (`rc = 0`) or failure. -/
structure OptionCallbackElem where
  name : List Char
  callback : Option (List Char) → Bool

/-- `mos_register_option_callback(name, cb)`: `-EINVAL` on a null handler or
a name whose length is at least the 64-byte name buffer; otherwise the
element is `list_add`-ed, i.e. prepended, to the registry. -/
def mos_register_option_callback (registry : List OptionCallbackElem)
    (name : List Char) (cb : Option (Option (List Char) → Bool)) :
    Except ReqErr (List OptionCallbackElem) :=
  match cb with
  | none => .error .einval
  | some f =>
    if 64 ≤ name.length then .error .einval
    else .ok ({ name := name, callback := f } :: registry)

/-- The option-lookup scan of `lwk_options_store`: the first registry element
(starting from the list head) whose name matches exactly. -/
def find_option_cb (registry : List OptionCallbackElem) (nm : List Char) :
    Option OptionCallbackElem :=
  match registry with
  | [] => none
  | e :: es => if e.name = nm then some e else find_option_cb es nm

/-- Splits an option phrase at its first `=` into name and optional value
(the `strchr(option, '=')` idiom). -/
def split_option (phrase : List Char) : List Char × Option (List Char) :=
  match splitFirstChar '=' phrase with
  | none => (phrase, none)
  | some (n, v) => (n, some v)

/-- Result of applying an options batch, mirroring the distinct failure exits
of `lwk_options_store` (all reported as `-EINVAL` by the C code, with
distinct `mos_ras` diagnostics). -/
inductive OptionsResult where
  | unknownOption (name : List Char)
  | optionRejected (name : List Char)
  | startHookFailed
  | ok
deriving DecidableEq, Repr

/-- The option loop of `lwk_options_store`: each phrase's name is looked up in
the option registry; no match aborts with the unknown-option failure, a
handler failure aborts with the rejected-option failure, leaving the rest of
the batch unprocessed.  `none` means every option succeeded. -/
def lwk_options_go (registry : List OptionCallbackElem) :
    List (List Char) → Option OptionsResult
  | [] => none
  | ph :: rest =>
    let nv := split_option ph
    match find_option_cb registry nv.1 with
    | none => some (.unknownOption nv.1)
    | some e =>
      if e.callback nv.2 then lwk_options_go registry rest
      else some (.optionRejected nv.1)

/-- Runs the registered `mos_process_start` callbacks in list order, stopping
at the first failure: returns whether all succeeded and how many were
invoked. -/
def run_start_hooks : List Bool → Bool × Nat
  | [] => (true, 0)
  | h :: hs =>
    if h then
      let r := run_start_hooks hs
      (r.1, r.2 + 1)
    else (false, 1)

/-- `lwk_options_store` for an LWK process, on the batch of non-empty
NUL-separated phrases: runs the option loop, and only when it completes does
it fire the `mos_process_start` callbacks, any failure of which fails the
whole write.  Returns the result and the number of start callbacks that were
invoked. -/
def lwk_options_store (registry : List OptionCallbackElem)
    (startHooks : List Bool) (phrases : List (List Char)) :
    OptionsResult × Nat :=
  match lwk_options_go registry phrases with
  | some e => (e, 0)
  | none =>
    let r := run_start_hooks startHooks
    (if r.1 then .ok else .startHookFailed, r.2)

/-- The concrete configuration operation of claim C7: the example
specification applied to the boot state with host CPU 0 online and
successful domain hooks. -/
def c7_out : ConfigOut :=
  lwk_config_lwkcpus {0} ⟨true, true⟩ initState "1.2-7,9:10.11,13,14".toList

/-- The reachable state of the C4 counterexample: partition `{1}` is created
from the boot state (host CPU 0 online, hooks succeeding), then CPU 1 is
claimed through the request path. -/
def c4_claimed_state : MosState :=
  let st1 := (lwk_config_lwkcpus {0} ⟨true, true⟩ initState ['1']).st
  { st1 with lwkcpus_reserved_map :=
      (_lwkcpus_request_set st1.lwkcpus_map st1.utility_cpus_map [] 7
        st1.lwkcpus_reserved_map ⟨none, false⟩ {1}).reserved }

/-- A process record already holding CPU 1, used by the C1 scenario. -/
def c1_proc : MosProcess :=
  { tgid := 7, lwkcpus := {1}, utilcpus := ∅, lwkcpus_sequence := [1, -1],
    num_lwkcpus := 1, num_util_threads := 0, alive := 1 }

/-- An always-accepting option handler. -/
def cb_accept : Option (List Char) → Bool := fun _ => true

/-- An always-rejecting option handler. -/
def cb_reject : Option (List Char) → Bool := fun _ => false

/-- A one-entry option registry recognising the option `x`. -/
def c8_registry : List OptionCallbackElem :=
  [{ name := ['x'], callback := cb_accept }]

/-- The registry obtained by registering an accepting handler for `x` and
then a rejecting handler for the same name `x` (both registrations are
accepted; each prepends). -/
def c9_reg_demo : List OptionCallbackElem :=
  match mos_register_option_callback [] ['x'] (some cb_accept) with
  | .ok r1 =>
    match mos_register_option_callback r1 ['x'] (some cb_reject) with
    | .ok r2 => r2
    | .error _ => []
  | .error _ => []

/-! Helper lemmas -/

theorem run_start_hooks_fst (hs : List Bool) :
    (run_start_hooks hs).1 = hs.all (· = true) := by
  induction hs with
  | nil => rfl
  | cons h t ih =>
    cases h <;> simp [run_start_hooks, ih]

theorem run_start_hooks_all_true (hs : List Bool)
    (h : hs.all (· = true) = true) : run_start_hooks hs = (true, hs.length) := by
  induction hs with
  | nil => rfl
  | cons a t ih =>
    have ha : a = true := by
      have := List.all_eq_true.mp h a (List.mem_cons_self a t)
      simpa using this
    have ht : t.all (· = true) = true := by
      rw [List.all_eq_true]
      intro x hx
      exact List.all_eq_true.mp h x (List.mem_cons_of_mem a hx)
    subst ha
    simp [run_start_hooks, ih ht]

theorem foldl_apply_group_newLwk (gs : List (List Char)) (a : GroupAcc) :
    (gs.foldl apply_group a).newLwk = a.newLwk ∪ groups_lwk gs := by
  induction gs generalizing a with
  | nil => simp [groups_lwk]
  | cons g gs ih =>
    rw [List.foldl_cons, ih, groups_lwk]
    cases hg : parseGroup g with
    | none => simp [apply_group, hg, group_from]
    | some tf =>
      obtain ⟨tgt, fr⟩ := tf
      simp [apply_group, hg, group_from, Finset.union_assoc]

theorem foldl_apply_group_mask (gs : List (List Char)) (a : GroupAcc)
    (cpu : Nat) (h : cpu ∉ groups_lwk gs) :
    (gs.foldl apply_group a).mask cpu = a.mask cpu := by
  induction gs generalizing a with
  | nil => rfl
  | cons g gs ih =>
    rw [groups_lwk] at h
    simp only [Finset.mem_union, not_or] at h
    rw [List.foldl_cons, ih _ h.2]
    cases hg : parseGroup g with
    | none => simp [apply_group, hg]
    | some tf =>
      obtain ⟨tgt, fr⟩ := tf
      have hfr : cpu ∉ fr := by
        have := h.1
        rw [group_from, hg] at this
        exact this
      simp [apply_group, hg, hfr]

theorem validate_go_clean (online : Finset Nat) (gs : List (List Char))
    (lwk sys : Finset Nat)
    (hp : ∀ g ∈ gs, (parseGroup g).isSome = true)
    (ha : ∀ g ∈ gs, group_ambiguous g = false) :
    validate_go online gs lwk sys =
      (if ((lwk ∪ groups_lwk gs) ∩ online).Nonempty then some .resourceInUse
       else if ((lwk ∪ groups_lwk gs) ∩ (sys ∪ groups_sys gs)).Nonempty then
         some .overlappingRoles
       else none) := by
  induction gs generalizing lwk sys with
  | nil => simp [validate_go, groups_lwk, groups_sys]
  | cons g gs ih =>
    obtain ⟨⟨tgt, fr⟩, hparse⟩ :=
      Option.isSome_iff_exists.mp (hp g (by simp))
    have hamb := ha g (by simp)
    rw [group_ambiguous, hparse] at hamb
    simp only [decide_eq_false_iff_not] at hamb
    rw [validate_go, hparse]
    simp only [hamb, if_false]
    rw [ih _ _ (fun g hg => hp g (by simp [hg])) (fun g hg => ha g (by simp [hg]))]
    rw [groups_lwk, groups_sys, group_from, group_to, hparse]
    rw [Finset.union_assoc, Finset.union_assoc]

theorem validate_go_ambiguous (online : Finset Nat) (gs : List (List Char))
    (lwk sys : Finset Nat)
    (hp : ∀ g ∈ gs, (parseGroup g).isSome = true)
    (ha : ∃ g ∈ gs, group_ambiguous g = true) :
    validate_go online gs lwk sys = some .ambiguousTarget := by
  induction gs generalizing lwk sys with
  | nil => simp at ha
  | cons g gs ih =>
    obtain ⟨⟨tgt, fr⟩, hparse⟩ :=
      Option.isSome_iff_exists.mp (hp g (by simp))
    rw [validate_go, hparse]
    by_cases hg : group_ambiguous g = true
    · rw [group_ambiguous, hparse] at hg
      simp only [decide_eq_true_eq] at hg
      dsimp only
      rw [if_pos hg]
    · obtain ⟨g1, hg1, hga⟩ := ha
      rcases List.mem_cons.mp hg1 with rfl | hmem
      · exact absurd hga hg
      · have hamb : ¬ (1 < tgt.card ∧ fr.Nonempty) := by
          rw [group_ambiguous, hparse] at hg
          simpa using hg
        simp only [hamb, if_false]
        exact ih _ _ (fun g hgg => hp g (by simp [hgg])) ⟨g1, hmem, hga⟩

theorem validate_empty_spec (online : Finset Nat) :
    validate_lwkcpus_spec online [] = none := by
  rw [validate_lwkcpus_spec, splitOnChar]
  rw [validate_go]
  have hparse : parseGroup [] = some (∅, ∅) := rfl
  rw [hparse]
  simp [validate_go]

/-! Claims -/

/-- Claim C2: validation of a partition specification, with the checks taken
in the order of the code: with every group parsing, a group naming more than
one target CPU together with a non-empty reserved range is rejected as
ambiguous; otherwise an intersection of the accumulated reserved CPUs with
the online host CPUs is rejected as resource-in-use, and failing that an
intersection with the accumulated target CPUs as overlapping roles; and any
validation failure leaves the partition state completely unchanged with a
failing `rc`. -/
theorem claim_C2_validate_rejects :
    (∀ (online : Finset Nat) (param : List Char),
      (∀ g ∈ splitOnChar ':' param, (parseGroup g).isSome = true) →
      (∃ g ∈ splitOnChar ':' param, group_ambiguous g = true) →
      validate_lwkcpus_spec online param = some .ambiguousTarget) ∧
    (∀ (online : Finset Nat) (param : List Char),
      (∀ g ∈ splitOnChar ':' param, (parseGroup g).isSome = true) →
      (∀ g ∈ splitOnChar ':' param, group_ambiguous g = false) →
      (groups_lwk (splitOnChar ':' param) ∩ online).Nonempty →
      validate_lwkcpus_spec online param = some .resourceInUse) ∧
    (∀ (online : Finset Nat) (param : List Char),
      (∀ g ∈ splitOnChar ':' param, (parseGroup g).isSome = true) →
      (∀ g ∈ splitOnChar ':' param, group_ambiguous g = false) →
      groups_lwk (splitOnChar ':' param) ∩ online = ∅ →
      (groups_lwk (splitOnChar ':' param)
          ∩ groups_sys (splitOnChar ':' param)).Nonempty →
      validate_lwkcpus_spec online param = some .overlappingRoles) ∧
    (∀ (online : Finset Nat) (hooks : Hooks) (st : MosState)
        (param : List Char) (e : ValidateErr),
      validate_lwkcpus_spec online param = some e →
      (lwk_config_lwkcpus online hooks st param).st = st ∧
      (lwk_config_lwkcpus online hooks st param).success = false) := by
  refine ⟨?_, ?_, ?_, ?_⟩
  · intro online param hp hamb
    rw [validate_lwkcpus_spec]
    exact validate_go_ambiguous online _ ∅ ∅ hp hamb
  · intro online param hp hna hint
    rw [validate_lwkcpus_spec, validate_go_clean online _ ∅ ∅ hp hna]
    simp only [Finset.empty_union]
    rw [if_pos hint]
  · intro online param hp hna hdisj hint
    rw [validate_lwkcpus_spec, validate_go_clean online _ ∅ ∅ hp hna]
    simp only [Finset.empty_union]
    rw [if_neg (by rw [hdisj]; exact Finset.not_nonempty_empty), if_pos hint]
  · intro online hooks st param e hv
    cases param with
    | nil => rw [validate_empty_spec] at hv; exact absurd hv (by simp)
    | cons a l =>
      by_cases hl : st.lwkcpus_map = ∅
      · constructor <;> simp [lwk_config_lwkcpus, config_create, hl, hv]
      · constructor <;> simp [lwk_config_lwkcpus, hl]

/-- Witness for claim C2 at the specification `"1"` with host CPU 1 online:
the accumulated reserved CPU set `{1}` intersects the online mask, so
validation reports resource-in-use, and applying the specification changes
nothing. -/
theorem claim_C2_validate_rejects_witness :
    ((∀ g ∈ splitOnChar ':' ['1'], (parseGroup g).isSome = true) ∧
     (∀ g ∈ splitOnChar ':' ['1'], group_ambiguous g = false) ∧
     (groups_lwk (splitOnChar ':' ['1']) ∩ {1}).Nonempty) ∧
    validate_lwkcpus_spec {1} ['1'] = some .resourceInUse ∧
    (lwk_config_lwkcpus {1} ⟨true, true⟩ initState ['1']).st = initState ∧
    (lwk_config_lwkcpus {1} ⟨true, true⟩ initState ['1']).success = false := by
  refine ⟨⟨by decide, by decide, by decide⟩, ?_, ?_, ?_⟩
  · exact claim_C2_validate_rejects.2.1 {1} ['1'] (by decide) (by decide)
      (by decide)
  · exact (claim_C2_validate_rejects.2.2.2 {1} ⟨true, true⟩ initState ['1']
      .resourceInUse (by decide)).1
  · exact (claim_C2_validate_rejects.2.2.2 {1} ⟨true, true⟩ initState ['1']
      .resourceInUse (by decide)).2

/-- Claim C3 (amended): applying the empty release sentinel when LWK CPUs
are configured resets every configured CPU's syscall route to itself, hands
exactly that CPU set to the domain-teardown hook, and (the hook succeeding)
clears the reserved-domain and utility CPU sets — but not
`lwkcpus_reserved_map`; on an already-empty map the operation leaves every
partition-map field unchanged and reports failure (`rc` keeps its initial
`-1`) instead of succeeding, without invoking the teardown hook. -/
theorem claim_C3_release (online : Finset Nat) (hooks : Hooks)
    (st : MosState) :
    (hooks.destroyOk = true → st.lwkcpus_map ≠ ∅ →
      (lwk_config_lwkcpus online hooks st []).success = true ∧
      (lwk_config_lwkcpus online hooks st []).destroyArg
          = some st.lwkcpus_map ∧
      (lwk_config_lwkcpus online hooks st []).st.lwkcpus_map = ∅ ∧
      (lwk_config_lwkcpus online hooks st []).st.utility_cpus_map = ∅ ∧
      (lwk_config_lwkcpus online hooks st []).st.lwkcpus_reserved_map
          = st.lwkcpus_reserved_map ∧
      (∀ cpu, cpu ∈ st.lwkcpus_map →
        (lwk_config_lwkcpus online hooks st []).st.syscall_mask cpu
            = {cpu}) ∧
      (∀ cpu, cpu ∉ st.lwkcpus_map →
        (lwk_config_lwkcpus online hooks st []).st.syscall_mask cpu
            = st.syscall_mask cpu)) ∧
    (st.lwkcpus_map = ∅ →
      (lwk_config_lwkcpus online hooks st []).success = false ∧
      (lwk_config_lwkcpus online hooks st []).destroyArg = none ∧
      (lwk_config_lwkcpus online hooks st []).st.lwkcpus_map
          = st.lwkcpus_map ∧
      (lwk_config_lwkcpus online hooks st []).st.utility_cpus_map
          = st.utility_cpus_map ∧
      (lwk_config_lwkcpus online hooks st []).st.lwkcpus_reserved_map
          = st.lwkcpus_reserved_map ∧
      (∀ cpu, (lwk_config_lwkcpus online hooks st []).st.syscall_mask cpu
          = st.syscall_mask cpu)) := by
  have hnil : lwk_config_lwkcpus online hooks st [] = config_release hooks st := by
    simp [lwk_config_lwkcpus]
  constructor
  · intro hd hne
    rw [hnil]
    refine ⟨?_, ?_, ?_, ?_, ?_, ?_, ?_⟩
    · simp [config_release, hne, hd]
    · simp [config_release, hne, hd]
    · simp [config_release, hne, hd]
    · simp [config_release, hne, hd]
    · simp [config_release, hne, hd]
    · intro cpu hcpu
      simp [config_release, hne, hd, hcpu]
    · intro cpu hcpu
      simp [config_release, hne, hd, hcpu]
  · intro hl
    rw [hnil]
    refine ⟨?_, ?_, ?_, ?_, ?_, ?_⟩
    · simp [config_release, hl]
    · simp [config_release, hl]
    · simp [config_release, hl]
    · simp [config_release, hl]
    · simp [config_release, hl]
    · intro cpu
      simp [config_release, hl]

/-- Witness for claim C3 at a concrete configured state: releasing a map
with LWK CPU 1 succeeds and self-routes CPU 1. -/
theorem claim_C3_release_witness :
    ((⟨true, true⟩ : Hooks).destroyOk = true ∧
      ({ initState with lwkcpus_map := {1} } : MosState).lwkcpus_map ≠ ∅) ∧
    (lwk_config_lwkcpus {0} ⟨true, true⟩
        { initState with lwkcpus_map := {1} } []).success = true ∧
    (lwk_config_lwkcpus {0} ⟨true, true⟩
        { initState with lwkcpus_map := {1} } []).st.syscall_mask 1 = {1} := by
  have h := (claim_C3_release {0} ⟨true, true⟩
    { initState with lwkcpus_map := {1} }).1 rfl (by decide)
  exact ⟨⟨rfl, by decide⟩, h.1, h.2.2.2.2.2.1 1 (by decide)⟩

/-- Counterexample to claim C3 as stated: releasing an already-empty map
reports failure (the C code's `rc` is never set to `0` on that path), and a
release never clears `lwkcpus_reserved_map`, so the Partition Map is not
fully cleared. -/
theorem claim_C3_cex :
    (lwk_config_lwkcpus {0} ⟨true, true⟩ initState []).success = false ∧
    (lwk_config_lwkcpus {0} ⟨true, true⟩
        { initState with lwkcpus_map := {1}, lwkcpus_reserved_map := {1} }
        []).st.lwkcpus_reserved_map = {1} := by
  decide

/-- Claim C8: in an options batch, a phrase whose name matches no registered
option callback fails as unknown, a matching handler that reports failure
fails the batch as rejected — in both cases independently of the remaining
phrases and with no `mos_process_start` callback invoked; the start
callbacks run only once every option in the batch has succeeded (a non-zero
invocation count implies the whole option loop succeeded), at which point
they all fire, and any start-callback failure fails the whole batch. -/
theorem claim_C8_options_batch :
    (∀ (registry : List OptionCallbackElem) (startHooks : List Bool)
        (ph : List Char) (rest : List (List Char)),
      find_option_cb registry (split_option ph).1 = none →
      lwk_options_store registry startHooks (ph :: rest)
        = (.unknownOption (split_option ph).1, 0)) ∧
    (∀ (registry : List OptionCallbackElem) (startHooks : List Bool)
        (ph : List Char) (rest : List (List Char)) (e : OptionCallbackElem),
      find_option_cb registry (split_option ph).1 = some e →
      e.callback (split_option ph).2 = false →
      lwk_options_store registry startHooks (ph :: rest)
        = (.optionRejected (split_option ph).1, 0)) ∧
    (∀ (registry : List OptionCallbackElem) (startHooks : List Bool)
        (phrases : List (List Char)),
      (lwk_options_store registry startHooks phrases).2 ≠ 0 →
      lwk_options_go registry phrases = none) ∧
    (∀ (registry : List OptionCallbackElem) (startHooks : List Bool)
        (phrases : List (List Char)),
      lwk_options_go registry phrases = none →
      (startHooks.all (· = true) = true →
        lwk_options_store registry startHooks phrases
          = (.ok, startHooks.length)) ∧
      (startHooks.all (· = true) = false →
        (lwk_options_store registry startHooks phrases).1
          = .startHookFailed)) := by
  refine ⟨?_, ?_, ?_, ?_⟩
  · intro registry startHooks ph rest h
    simp [lwk_options_store, lwk_options_go, h]
  · intro registry startHooks ph rest e h1 h2
    simp [lwk_options_store, lwk_options_go, h1, h2]
  · intro registry startHooks phrases h
    cases hgo : lwk_options_go registry phrases with
    | none => rfl
    | some e =>
      rw [lwk_options_store, hgo] at h
      exact absurd rfl h
  · intro registry startHooks phrases hgo
    constructor
    · intro hall
      rw [lwk_options_store, hgo, run_start_hooks_all_true startHooks hall]
      rfl
    · intro hfail
      rw [lwk_options_store, hgo]
      have := run_start_hooks_fst startHooks
      rw [hfail] at this
      simp [this]

/-- Witness for claim C8: with the one-option registry for `x` and one
succeeding start callback, applying the unknown option `y` fails with no
start callback fired, and applying `x` succeeds and fires the start
callback. -/
theorem claim_C8_options_batch_witness :
    (find_option_cb c8_registry (split_option ['y']).1 = none ∧
      lwk_options_go c8_registry [['x']] = none ∧
      ([true] : List Bool).all (· = true) = true) ∧
    lwk_options_store c8_registry [true] [['y']]
      = (.unknownOption ['y'], 0) ∧
    lwk_options_store c8_registry [true] [['x']] = (.ok, 1) := by
  have h1 := claim_C8_options_batch.1 c8_registry [true] ['y'] []
    (by rw [split_option]; rfl)
  have h2 := (claim_C8_options_batch.2.2.2 c8_registry [true] [['x']]
    rfl).1 rfl
  exact ⟨⟨by rw [split_option]; rfl, rfl, rfl⟩, h1, h2⟩

/-- Claim C9 (amended): registering an option callback fails `-EINVAL` on a
null handler or a name of length at least the 64-byte buffer; shorter names
are prepended to the registry (`list_add`), duplicates included — so after
registering two handlers under one name, lookup (a linear scan from the list
head) finds the handler registered *most recently*, not the first one. -/
theorem claim_C9_registry :
    (∀ (registry : List OptionCallbackElem) (name : List Char),
      mos_register_option_callback registry name none = .error .einval) ∧
    (∀ (registry : List OptionCallbackElem) (name : List Char)
        (f : Option (List Char) → Bool), 64 ≤ name.length →
      mos_register_option_callback registry name (some f)
        = .error .einval) ∧
    (∀ (registry : List OptionCallbackElem) (name : List Char)
        (f : Option (List Char) → Bool), name.length < 64 →
      mos_register_option_callback registry name (some f)
        = .ok ({ name := name, callback := f } :: registry)) ∧
    (∀ (registry r1 r2 : List OptionCallbackElem) (name : List Char)
        (f g : Option (List Char) → Bool),
      mos_register_option_callback registry name (some f) = .ok r1 →
      mos_register_option_callback r1 name (some g) = .ok r2 →
      find_option_cb r2 name = some { name := name, callback := g }) := by
  refine ⟨?_, ?_, ?_, ?_⟩
  · intro registry name
    rfl
  · intro registry name f h
    simp [mos_register_option_callback, h]
  · intro registry name f h
    simp [mos_register_option_callback, Nat.not_le.mpr h]
  · intro registry r1 r2 name f g h1 h2
    by_cases h : 64 ≤ name.length
    · rw [mos_register_option_callback] at h1
      simp [h] at h1
    · rw [mos_register_option_callback] at h2
      simp only [if_neg h] at h2
      have : ({ name := name, callback := g } :: r1) = r2 := by
        simpa using h2
      rw [← this, find_option_cb]
      simp

/-- Witness for claim C9: a null handler and a 64-character name are both
rejected, and a short name is accepted and prepended. -/
theorem claim_C9_registry_witness :
    (64 ≤ (List.replicate 64 'a').length ∧ (['x'] : List Char).length < 64) ∧
    mos_register_option_callback [] ['x'] none = .error .einval ∧
    mos_register_option_callback [] (List.replicate 64 'a') (some cb_accept)
      = .error .einval ∧
    mos_register_option_callback [] ['x'] (some cb_accept)
      = .ok [{ name := ['x'], callback := cb_accept }] :=
  ⟨⟨by decide, by decide⟩,
    claim_C9_registry.1 [] ['x'],
    claim_C9_registry.2.1 [] (List.replicate 64 'a') cb_accept (by decide),
    claim_C9_registry.2.2.1 [] ['x'] cb_accept (by decide)⟩

/-- Counterexample to claim C9 as stated: after registering the accepting
handler for `x` first and the rejecting one second, lookup returns a handler
that rejects — the handler registered first accepts, so the first registered
handler does not win; applying option `x` invokes the rejecting (more
recently registered) handler. -/
theorem claim_C9_cex :
    cb_accept none = true ∧
    (find_option_cb c9_reg_demo ['x']).map (fun e => e.callback none)
      = some false ∧
    lwk_options_store c9_reg_demo [] [['x']] = (.optionRejected ['x'], 0) := by
  refine ⟨rfl, rfl, rfl⟩

/-- Claim C1 (amended): a CPU-claim request outside the reserved domain
fails `-EINVAL` and one intersecting the claimed set fails `-EBUSY`, both
without changing anything; an acceptable request is added to
`lwkcpus_reserved_map`, marks the task as an LWK process, and *replaces*
(rather than adds to) the process record's claimed-CPU mask; claiming A and
then an overlapping B from two processes on an initially unclaimed partition
leaves the claimed set equal to A with the second claim failing `-EBUSY`. -/
theorem claim_C1_claim_request :
    (∀ (lwk util req res : Finset Nat) (initHooks : List Bool) (tgid : Nat)
        (t : TaskCtx), ¬ req ⊆ lwk →
      _lwkcpus_request_set lwk util initHooks tgid res t req
        = { rc := some .einval, reserved := res, task := t }) ∧
    (∀ (lwk util req res : Finset Nat) (initHooks : List Bool) (tgid : Nat)
        (t : TaskCtx), req ⊆ lwk → (req ∩ res).Nonempty →
      _lwkcpus_request_set lwk util initHooks tgid res t req
        = { rc := some .ebusy, reserved := res, task := t }) ∧
    (∀ (lwk util req res : Finset Nat) (initHooks : List Bool) (tgid : Nat)
        (t : TaskCtx) (p : MosProcess),
      req ⊆ lwk → req ∩ res = ∅ → t.mos_process = some p →
      (_lwkcpus_request_set lwk util initHooks tgid res t req).rc = none ∧
      (_lwkcpus_request_set lwk util initHooks tgid res t req).reserved
          = res ∪ req ∧
      (_lwkcpus_request_set lwk util initHooks tgid res t req).task.is_lwk
          = true ∧
      ((_lwkcpus_request_set lwk util initHooks tgid res t
          req).task.mos_process.map (fun q => q.lwkcpus)) = some req) ∧
    (∀ (lwk util A B : Finset Nat) (initHooks : List Bool) (tg1 tg2 : Nat)
        (t1 t2 : TaskCtx) (p1 : MosProcess),
      A ⊆ lwk → B ⊆ lwk → (A ∩ B).Nonempty → t1.mos_process = some p1 →
      (_lwkcpus_request_set lwk util initHooks tg1 ∅ t1 A).rc = none ∧
      (_lwkcpus_request_set lwk util initHooks tg1 ∅ t1 A).reserved = A ∧
      (_lwkcpus_request_set lwk util initHooks tg2
        (_lwkcpus_request_set lwk util initHooks tg1 ∅ t1 A).reserved t2
        B).rc = some .ebusy ∧
      (_lwkcpus_request_set lwk util initHooks tg2
        (_lwkcpus_request_set lwk util initHooks tg1 ∅ t1 A).reserved t2
        B).reserved = A) := by
  have herr1 : ∀ (lwk util req res : Finset Nat) (initHooks : List Bool)
      (tgid : Nat) (t : TaskCtx), ¬ req ⊆ lwk →
      _lwkcpus_request_set lwk util initHooks tgid res t req
        = { rc := some .einval, reserved := res, task := t } := by
    intro lwk util req res initHooks tgid t h
    simp [_lwkcpus_request_set, _cpus_request_set, h]
  have herr2 : ∀ (lwk util req res : Finset Nat) (initHooks : List Bool)
      (tgid : Nat) (t : TaskCtx), req ⊆ lwk → (req ∩ res).Nonempty →
      _lwkcpus_request_set lwk util initHooks tgid res t req
        = { rc := some .ebusy, reserved := res, task := t } := by
    intro lwk util req res initHooks tgid t h1 h2
    simp [_lwkcpus_request_set, _cpus_request_set, h1, h2]
  have hok : ∀ (lwk util req res : Finset Nat) (initHooks : List Bool)
      (tgid : Nat) (t : TaskCtx) (p : MosProcess),
      req ⊆ lwk → req ∩ res = ∅ → t.mos_process = some p →
      (_lwkcpus_request_set lwk util initHooks tgid res t req).rc = none ∧
      (_lwkcpus_request_set lwk util initHooks tgid res t req).reserved
          = res ∪ req ∧
      (_lwkcpus_request_set lwk util initHooks tgid res t req).task.is_lwk
          = true ∧
      ((_lwkcpus_request_set lwk util initHooks tgid res t
          req).task.mos_process.map (fun q => q.lwkcpus)) = some req := by
    intro lwk util req res initHooks tgid t p h1 h2 hp
    have hne : ¬ (req ∩ res).Nonempty := by
      rw [h2]
      exact Finset.not_nonempty_empty
    simp [_lwkcpus_request_set, _cpus_request_set, h1, hne,
      mos_get_process, hp]
  refine ⟨herr1, herr2, hok, ?_⟩
  intro lwk util A B initHooks tg1 tg2 t1 t2 p1 hA hB hAB hp1
  have h1 := hok lwk util A ∅ initHooks tg1 t1 p1 hA (Finset.inter_empty A) hp1
  have hBA : (B ∩ A).Nonempty := by
    rwa [Finset.inter_comm] at hAB
  have hresA : (_lwkcpus_request_set lwk util initHooks tg1 ∅ t1 A).reserved
      = A := by
    rw [h1.2.1, Finset.empty_union]
  have h2 := herr2 lwk util B A initHooks tg2 t2 hB hBA
  refine ⟨h1.1, hresA, ?_, ?_⟩
  · rw [hresA, h2]
  · rw [hresA, h2]

/-- Witness for claim C1: on the partition `{1, 2}` the claim of `{1}`
succeeds and the second claim of the overlapping `{1}` from another process
fails `-EBUSY`, leaving the claimed set `{1}`. -/
theorem claim_C1_claim_request_witness :
    (({1} : Finset Nat) ⊆ {1, 2} ∧
      (({1} : Finset Nat) ∩ {1}).Nonempty ∧
      (⟨some c1_proc, false⟩ : TaskCtx).mos_process = some c1_proc) ∧
    (_lwkcpus_request_set {1, 2} ∅ [] 5 ∅ ⟨some c1_proc, false⟩ {1}).rc
        = none ∧
    (_lwkcpus_request_set {1, 2} ∅ [] 5 ∅ ⟨some c1_proc, false⟩ {1}).reserved
        = {1} ∧
    (_lwkcpus_request_set {1, 2} ∅ [] 6
      (_lwkcpus_request_set {1, 2} ∅ [] 5 ∅ ⟨some c1_proc, false⟩
        {1}).reserved ⟨some c1_proc, false⟩ {1}).rc = some .ebusy ∧
    (_lwkcpus_request_set {1, 2} ∅ [] 6
      (_lwkcpus_request_set {1, 2} ∅ [] 5 ∅ ⟨some c1_proc, false⟩
        {1}).reserved ⟨some c1_proc, false⟩ {1}).reserved = {1} := by
  have h := claim_C1_claim_request.2.2.2 {1, 2} ∅ {1} {1} [] 5 6
    ⟨some c1_proc, false⟩ ⟨some c1_proc, false⟩ c1_proc (by decide)
    (by decide) (by decide) rfl
  exact ⟨⟨by decide, by decide, rfl⟩, h.1, h.2.1, h.2.2.1, h.2.2.2⟩

/-- Counterexample to claim C1 as stated: a process already holding CPU 1
claims CPU 2 on the partition `{1, 2}`; the claim succeeds, but the record's
claimed-CPU mask afterwards is `{2}`, not the union `{1, 2}` — the request
is not *added* to `claimedCpus`, it replaces it
(`cpumask_or(p->lwkcpus, request, request)`). -/
theorem claim_C1_cex :
    (_lwkcpus_request_set {1, 2} ∅ [] 7 {1} ⟨some c1_proc, true⟩ {2}).rc
        = none ∧
    ((_lwkcpus_request_set {1, 2} ∅ [] 7 {1} ⟨some c1_proc, true⟩
        {2}).task.mos_process.map (fun q => q.lwkcpus))
      ≠ some (c1_proc.lwkcpus ∪ {2}) := by
  decide

/-- Claim C10: a claim request for the empty CPU set succeeds whatever the
partition state (even the boot state with no partition), leaves
`lwkcpus_reserved_map` unchanged, marks the task as an LWK process, and
creates its process record (running the init-hook chain, here all
succeeding) with an empty claimed mask, a copy of the utility CPUs, and a
CPU-sequence array holding only the `-1` end sentinel. -/
theorem claim_C10_empty_claim (lwk util res : Finset Nat)
    (initHooks : List Bool) (tgid : Nat) (t : TaskCtx)
    (hnone : t.mos_process = none)
    (hhooks : initHooks.all (· = true) = true) :
    (_lwkcpus_request_set lwk util initHooks tgid res t ∅).rc = none ∧
    (_lwkcpus_request_set lwk util initHooks tgid res t ∅).reserved = res ∧
    (_lwkcpus_request_set lwk util initHooks tgid res t ∅).task.is_lwk
        = true ∧
    (_lwkcpus_request_set lwk util initHooks tgid res t ∅).task.mos_process
      = some { tgid := tgid, lwkcpus := ∅, utilcpus := util,
               lwkcpus_sequence := [(-1 : Int)], num_lwkcpus := 0,
               num_util_threads := 0, alive := 1 } := by
  have hmem : ¬ false ∈ initHooks := by
    intro hmem
    have h2 := List.all_eq_true.mp hhooks false hmem
    simp at h2
  simp [_lwkcpus_request_set, _cpus_request_set, mos_get_process, hnone,
    hmem, Finset.sort_empty]

/-- Witness for claim C10: the empty claim from a fresh task with no
registered init callbacks and no partition configured. -/
theorem claim_C10_empty_claim_witness :
    ((⟨none, false⟩ : TaskCtx).mos_process = none ∧
      ([] : List Bool).all (· = true) = true) ∧
    (_lwkcpus_request_set ∅ ∅ [] 5 ∅ ⟨none, false⟩ ∅).rc = none ∧
    (_lwkcpus_request_set ∅ ∅ [] 5 ∅ ⟨none, false⟩ ∅).reserved = ∅ ∧
    (_lwkcpus_request_set ∅ ∅ [] 5 ∅ ⟨none, false⟩ ∅).task.is_lwk = true ∧
    (_lwkcpus_request_set ∅ ∅ [] 5 ∅ ⟨none, false⟩ ∅).task.mos_process
      = some { tgid := 5, lwkcpus := ∅, utilcpus := ∅,
               lwkcpus_sequence := [(-1 : Int)], num_lwkcpus := 0,
               num_util_threads := 0, alive := 1 } :=
  ⟨⟨rfl, rfl⟩, claim_C10_empty_claim ∅ ∅ ∅ [] 5 ⟨none, false⟩ rfl rfl⟩

/-- The Partition-Map invariant of the specification:
`reservedByProcesses ⊆ reservedDomainCpus`. -/
abbrev reservedInv (st : MosState) : Prop :=
  st.lwkcpus_reserved_map ⊆ st.lwkcpus_map

theorem cpus_request_set_ok (lwk res req r : Finset Nat)
    (h : _cpus_request_set lwk res req = .ok r) :
    req ⊆ lwk ∧ r = res ∪ req := by
  rw [_cpus_request_set] at h
  by_cases h1 : req ⊆ lwk
  · rw [if_neg (by simpa using h1)] at h
    by_cases h2 : (req ∩ res).Nonempty
    · rw [if_pos h2] at h
      exact absurd h (by simp)
    · rw [if_neg h2] at h
      simp only [Except.ok.injEq] at h
      exact ⟨h1, h.symm⟩
  · rw [if_pos (by simpa using h1)] at h
    exact absurd h (by simp)

/-- Claim C4 (amended): partition creation, CPU claiming, claimed-set
replacement and thread exit preserve `reservedByProcesses ⊆
reservedDomainCpus` (thread exit under the process invariant that its
claimed CPUs lie in the reserved domain); partition destruction preserves it
only when `reservedByProcesses` is empty; and when the last thread of a
process exits, its claimed CPUs are removed from `reservedByProcesses` and
its record is freed. -/
theorem claim_C4_invariant :
    (∀ (online : Finset Nat) (hooks : Hooks) (st : MosState)
        (param : List Char),
      reservedInv st → (param = [] → st.lwkcpus_reserved_map = ∅) →
      reservedInv (lwk_config_lwkcpus online hooks st param).st) ∧
    (∀ (lwk util req res : Finset Nat) (initHooks : List Bool) (tgid : Nat)
        (t : TaskCtx),
      res ⊆ lwk →
      (_lwkcpus_request_set lwk util initHooks tgid res t req).reserved
          ⊆ lwk) ∧
    (∀ (lwk req res : Finset Nat), res ⊆ lwk →
      (match _cpus_reserved_set lwk req with
        | .ok r => r
        | .error _ => res) ⊆ lwk) ∧
    (∀ (lwk res : Finset Nat) (p : MosProcess), res ⊆ lwk →
      p.lwkcpus ⊆ lwk → (mos_exit_thread res p).1 ⊆ lwk) ∧
    (∀ (res : Finset Nat) (p : MosProcess), p.alive = 1 → p.lwkcpus ⊆ res →
      mos_exit_thread res p = (res \ p.lwkcpus, none)) := by
  refine ⟨?_, ?_, ?_, ?_, ?_⟩
  · intro online hooks st param hinv hrel
    cases param with
    | nil =>
      have hres : st.lwkcpus_reserved_map = ∅ := hrel rfl
      have hnil : lwk_config_lwkcpus online hooks st []
          = config_release hooks st := by
        simp [lwk_config_lwkcpus]
      rw [hnil, config_release]
      by_cases hl : st.lwkcpus_map = ∅
      · simp only [if_pos hl]
        simp [reservedInv, hres]
      · simp only [if_neg hl]
        by_cases hd : hooks.destroyOk = true
        · simp [hd, reservedInv, hres]
        · simp only [hd, if_false]
          simp [reservedInv, hres]
    | cons a l =>
      by_cases hl : st.lwkcpus_map = ∅
      · have hcfg : lwk_config_lwkcpus online hooks st (a :: l)
            = config_create online hooks st (a :: l) := by
          simp [lwk_config_lwkcpus, hl]
        rw [hcfg, config_create]
        have hres : st.lwkcpus_reserved_map = ∅ := by
          have := hinv
          rw [reservedInv, hl] at this
          exact Finset.subset_empty.mp this
        cases hval : validate_lwkcpus_spec online (a :: l) with
        | some e => exact hinv
        | none =>
          by_cases hL : ((splitOnChar ':' (a :: l)).foldl apply_group
              { mask := st.syscall_mask, newLwk := ∅,
                newUtil := ∅ }).newLwk = ∅
          · simp only [hL, if_pos]
            exact hinv
          · simp only [hL, if_false]
            by_cases hcrea : hooks.createOk = true
            · simp only [hcrea, if_true]
              simp [reservedInv, hres]
            · simp only [hcrea, if_false]
              exact hinv
      · simp [lwk_config_lwkcpus, hl, reservedInv]
        exact hinv
  · intro lwk util req res initHooks tgid t hsub
    rw [_lwkcpus_request_set]
    cases hreq : _cpus_request_set lwk res req with
    | error e => exact hsub
    | ok r =>
      obtain ⟨hrq, hr⟩ := cpus_request_set_ok lwk res req r hreq
      cases hproc : mos_get_process initHooks tgid t.mos_process with
      | none =>
        simpa [hr] using Finset.union_subset hsub hrq
      | some p =>
        simpa [hr] using Finset.union_subset hsub hrq
  · intro lwk req res hsub
    rw [_cpus_reserved_set]
    by_cases hc : ¬ req = ∅ ∧ ¬ req ⊆ lwk
    · simp only [if_pos hc]
      exact hsub
    · simp only [if_neg hc]
      push_neg at hc
      by_cases he : req = ∅
      · simp [he]
      · exact hc he
  · intro lwk res p hsub hp
    rw [mos_exit_thread]
    by_cases ha : p.alive - 1 = 0
    · simp only [if_pos ha]
      exact Finset.union_subset
        ((Finset.sdiff_subset).trans hsub)
        ((Finset.sdiff_subset).trans hp)
    · simp only [if_neg ha]
      exact hsub
  · intro res p ha hsub
    rw [mos_exit_thread, ha]
    simp [cpumask_xor, Finset.sdiff_eq_empty_iff_subset.mpr hsub]

/-- Witness for claim C4: creating partition `{1}` from the boot state
preserves the invariant, and the last-thread exit of a process holding CPU 1
out of a reserved set `{1}` returns it. -/
theorem claim_C4_invariant_witness :
    (reservedInv initState ∧
      ({ tgid := 7, lwkcpus := {1}, utilcpus := ∅, lwkcpus_sequence := []
         num_lwkcpus := 1, num_util_threads := 0,
         alive := 1 } : MosProcess).lwkcpus ⊆ {1}) ∧
    reservedInv (lwk_config_lwkcpus {0} ⟨true, true⟩ initState ['1']).st ∧
    mos_exit_thread {1}
      { tgid := 7, lwkcpus := {1}, utilcpus := ∅, lwkcpus_sequence := []
        num_lwkcpus := 1, num_util_threads := 0, alive := 1 }
      = ({1} \ {1}, none) :=
  ⟨⟨by decide, by decide⟩,
    claim_C4_invariant.1 {0} ⟨true, true⟩ initState ['1'] (by decide)
      (fun h => by simp at h),
    claim_C4_invariant.2.2.2.2 {1}
      { tgid := 7, lwkcpus := {1}, utilcpus := ∅, lwkcpus_sequence := []
        num_lwkcpus := 1, num_util_threads := 0, alive := 1 }
      rfl (by decide)⟩

/-- Counterexample to claim C4 as stated: destroying the partition while a
process still holds CPU 1 clears `lwkcpus_map` but leaves
`lwkcpus_reserved_map = {1}`, so the operation breaks
`reservedByProcesses ⊆ reservedDomainCpus`. -/
theorem claim_C4_cex :
    reservedInv c4_claimed_state ∧
    ¬ reservedInv
        (lwk_config_lwkcpus {0} ⟨true, true⟩ c4_claimed_state []).st := by
  decide

/-- Claim C5 (amended): starting from an empty partition map, applying a
valid specification and then the empty release sentinel restores the
reserved-domain CPU set, the utility CPU set and the claimed set, and
restores the syscall route of every CPU outside the specification's reserved
set; the routes of the CPUs inside that set are left self-routing, so they
are restored exactly when they were self-routing before. -/
theorem claim_C5_roundtrip (online : Finset Nat) (hooks : Hooks)
    (st st2 : MosState) (param : List Char)
    (hd : hooks.destroyOk = true) (hc : hooks.createOk = true)
    (hl : st.lwkcpus_map = ∅) (hu : st.utility_cpus_map = ∅)
    (hv : validate_lwkcpus_spec online param = none)
    (h2 : st2 = (lwk_config_lwkcpus online hooks
        (lwk_config_lwkcpus online hooks st param).st []).st) :
    st2.lwkcpus_map = st.lwkcpus_map ∧
    st2.utility_cpus_map = st.utility_cpus_map ∧
    st2.lwkcpus_reserved_map = st.lwkcpus_reserved_map ∧
    (∀ cpu, cpu ∉ groups_lwk (splitOnChar ':' param) →
      st2.syscall_mask cpu = st.syscall_mask cpu) ∧
    (∀ cpu, cpu ∈ groups_lwk (splitOnChar ':' param) →
      st2.syscall_mask cpu = {cpu}) := by
  subst h2
  cases param with
  | nil =>
    have hfix : ∀ s : MosState, s.lwkcpus_map = ∅ →
        (lwk_config_lwkcpus online hooks s []).st.lwkcpus_map
            = s.lwkcpus_map ∧
        (lwk_config_lwkcpus online hooks s []).st.utility_cpus_map
            = s.utility_cpus_map ∧
        (lwk_config_lwkcpus online hooks s []).st.lwkcpus_reserved_map
            = s.lwkcpus_reserved_map ∧
        (∀ cpu, (lwk_config_lwkcpus online hooks s []).st.syscall_mask cpu
            = s.syscall_mask cpu) := by
      intro s hs
      simp [lwk_config_lwkcpus, config_release, hs]
    have h1 := hfix st hl
    have h2b := hfix (lwk_config_lwkcpus online hooks st []).st
      (h1.1.trans hl)
    refine ⟨h2b.1.trans h1.1, h2b.2.1.trans h1.2.1,
      h2b.2.2.1.trans h1.2.2.1, ?_, ?_⟩
    · intro cpu _
      exact (h2b.2.2.2 cpu).trans (h1.2.2.2 cpu)
    · intro cpu hcpu
      have : groups_lwk (splitOnChar ':' ([] : List Char)) = ∅ := by decide
      rw [this] at hcpu
      exact absurd hcpu (Finset.not_mem_empty cpu)
  | cons a l =>
    have hcfg : lwk_config_lwkcpus online hooks st (a :: l)
        = config_create online hooks st (a :: l) := by
      simp [lwk_config_lwkcpus, hl]
    rw [hcfg]
    rw [config_create, hv]
    have hacc := foldl_apply_group_newLwk (splitOnChar ':' (a :: l))
      { mask := st.syscall_mask, newLwk := ∅, newUtil := ∅ }
    rw [Finset.empty_union] at hacc
    by_cases hL : groups_lwk (splitOnChar ':' (a :: l)) = ∅
    · simp only [hacc, hL, if_pos]
      have hmask : ∀ cpu,
          ((splitOnChar ':' (a :: l)).foldl apply_group
            { mask := st.syscall_mask, newLwk := ∅, newUtil := ∅ }).mask cpu
              = st.syscall_mask cpu := by
        intro cpu
        exact foldl_apply_group_mask _ _ cpu (by rw [hL]; exact Finset.not_mem_empty cpu)
      simp only [lwk_config_lwkcpus, config_release, List.isEmpty_nil]
      simp only [hl, not_true, false_and, if_false, if_true]
      refine ⟨by simp [hl], by simp, by simp, ?_, ?_⟩
      · intro cpu _
        simp [hl, hmask cpu]
      · intro cpu hcpu
        exact absurd hcpu (Finset.not_mem_empty cpu)
    · simp only [hacc, hL, if_false, hc, if_true]
      simp only [lwk_config_lwkcpus, config_release, List.isEmpty_nil]
      simp only [hL, not_true, false_and, if_false, if_true]
      refine ⟨by simp [hd, hL, hl], by simp [hd, hL, hu], by simp [hd, hL], ?_, ?_⟩
      · intro cpu hcpu
        have hmask := foldl_apply_group_mask (splitOnChar ':' (a :: l))
          { mask := st.syscall_mask, newLwk := ∅, newUtil := ∅ } cpu hcpu
        simp [hd, hL, hcpu, hmask]
      · intro cpu hcpu
        simp [hd, hL, hcpu]

/-- Witness for claim C5: the round trip of the specification `"1.2"` (CPU 1
serves syscalls of reserved CPU 2) over the boot state with host CPU 0
online restores the maps, and CPU 0's route is untouched. -/
theorem claim_C5_roundtrip_witness :
    validate_lwkcpus_spec {0} "1.2".toList = none ∧
    ((lwk_config_lwkcpus {0} ⟨true, true⟩
        (lwk_config_lwkcpus {0} ⟨true, true⟩ initState
          "1.2".toList).st []).st.lwkcpus_map = initState.lwkcpus_map ∧
     (lwk_config_lwkcpus {0} ⟨true, true⟩
        (lwk_config_lwkcpus {0} ⟨true, true⟩ initState
          "1.2".toList).st []).st.utility_cpus_map
        = initState.utility_cpus_map) := by
  have h := claim_C5_roundtrip {0} ⟨true, true⟩ initState
    (lwk_config_lwkcpus {0} ⟨true, true⟩
      (lwk_config_lwkcpus {0} ⟨true, true⟩ initState "1.2".toList).st []).st
    "1.2".toList rfl rfl rfl rfl (by decide) rfl
  exact ⟨by decide, h.1, h.2.1⟩

/-- Counterexample to claim C5 as stated: in the boot state every syscall
mask is the empty mask; after applying `"1.2"` and releasing, CPU 2's
syscall mask is its self-routing singleton `{2}`, not the boot-state value,
so the per-CPU syscall routes are not restored. -/
theorem claim_C5_cex :
    (lwk_config_lwkcpus {0} ⟨true, true⟩
        (lwk_config_lwkcpus {0} ⟨true, true⟩ initState
          "1.2".toList).st []).st.syscall_mask 2 = {2} ∧
    initState.syscall_mask 2 = ∅ ∧
    ({2} : Finset Nat) ≠ ∅ := by
  decide

/-- Claim C6: applying a non-empty partition specification while
`reservedDomainCpus` (`lwkcpus_map`) is already non-empty fails with the
configuration-locked error and changes nothing — the whole result is the
unchanged state with the failing `rc` and neither domain hook invoked. -/
theorem claim_C6_locked (online : Finset Nat) (hooks : Hooks) (st : MosState)
    (param : List Char) (hp : param ≠ []) (hl : st.lwkcpus_map ≠ ∅) :
    lwk_config_lwkcpus online hooks st param =
      { success := false, err := some .configurationLocked, st := st,
        destroyArg := none, createArg := none } := by
  cases param with
  | nil => exact absurd rfl hp
  | cons a l => simp [lwk_config_lwkcpus, hl]

/-- Witness for claim C6 at a concrete locked state and specification. -/
theorem claim_C6_locked_witness :
    ((['2'] : List Char) ≠ [] ∧
      ({ initState with lwkcpus_map := {1} } : MosState).lwkcpus_map ≠ ∅) ∧
    lwk_config_lwkcpus {0} ⟨true, true⟩ { initState with lwkcpus_map := {1} }
        ['2'] =
      { success := false, err := some .configurationLocked,
        st := { initState with lwkcpus_map := {1} },
        destroyArg := none, createArg := none } :=
  ⟨⟨by decide, by decide⟩,
    claim_C6_locked {0} ⟨true, true⟩ { initState with lwkcpus_map := {1} }
      ['2'] (by decide) (by decide)⟩

/-- Claim C7: applying the specification `"1.2-7,9:10.11,13,14"` reserves
exactly CPUs `{2,3,4,5,6,7,9,11,13,14}`, routes the syscalls of CPUs
2,3,4,5,6,7,9 to target CPU 1, and routes those of CPUs 11,13,14 to target
CPU 10. -/
theorem claim_C7_example_spec :
    c7_out.success = true ∧
    c7_out.st.lwkcpus_map = {2, 3, 4, 5, 6, 7, 9, 11, 13, 14} ∧
    c7_out.st.syscall_mask 2 = {1} ∧ c7_out.st.syscall_mask 3 = {1} ∧
    c7_out.st.syscall_mask 4 = {1} ∧ c7_out.st.syscall_mask 5 = {1} ∧
    c7_out.st.syscall_mask 6 = {1} ∧ c7_out.st.syscall_mask 7 = {1} ∧
    c7_out.st.syscall_mask 9 = {1} ∧
    c7_out.st.syscall_mask 11 = {10} ∧ c7_out.st.syscall_mask 13 = {10} ∧
    c7_out.st.syscall_mask 14 = {10} := by
  decide

end Mos
